import Mathlib

/-!
Verification of the ReStrax orchestration engine
(`straxen/scripts/restrax.py`, version 0.3.1).

This file gives a shallow embedding of the parts of the orchestrator that
the specification talks about: work discovery and claim bookkeeping on the
shared run collection, compression-policy selection, the skip/transform
partition, the post-transform consistency checks, the verbatim-move
(bypass) path, deletion of pre-transform copies, and the deep validator's
memory-bounded comparison policy.

Modelling conventions:
* Machine floats in the source (data rates, megabyte thresholds) are
  embedded as exact rationals/naturals; the comparisons in the source are
  between integer-valued quantities, where the float and exact orders
  agree.
* The document store (MongoDB) is a list of run documents; `update_one`
  updates the first document matching the filter, `find_one` with a
  descending `_id` sort returns the matching document with the largest id.
* The filesystem is a map from directory paths to their strax metadata;
  `get_metadata` is total (a missing directory yields empty metadata) and
  existence is queried separately, exactly as the source queries
  `os.path.exists` independently of `get_metadata`.
* The external rechunk primitive (`strax.rechunker`) and the deep
  byte-level comparison are abstracted as configuration parameters: the
  claims under verification concern the orchestration around them.
* The threaded branch of `rechunk_docs` is embedded by its sequential
  semantics (the `max_threads <= 1` branch of the source); no claim below
  depends on the interleaving of worker threads.
* Python `fnmatch` patterns occurring in this repository use only the
  `*` and `?` wildcards, so the embedding of `fnmatch.fnmatch` covers
  exactly those (plus literals); bracket classes are not modelled.
-/

namespace Restrax

/-- Glob matching with explicit fuel, structurally recursive so that
concrete instances reduce inside the kernel.  Each step consumes either a
pattern character or a name character, so `pattern.length + name.length`
steps always suffice; the out-of-fuel branch is unreachable from
`globMatch` below. -/
def globMatchFuel : Nat → List Char → List Char → Bool
  | 0, _, _ => false
  | _ + 1, [], [] => true
  | _ + 1, [], _ :: _ => false
  | f + 1, '*' :: ps, [] => globMatchFuel f ps []
  | f + 1, '*' :: ps, c :: ns =>
    globMatchFuel f ps (c :: ns) || globMatchFuel f ('*' :: ps) ns
  | f + 1, '?' :: ps, _ :: ns => globMatchFuel f ps ns
  | _ + 1, '?' :: _, [] => false
  | f + 1, p :: ps, c :: ns => (p == c) && globMatchFuel f ps ns
  | _ + 1, _ :: _, [] => false

/-- Glob matching on character lists: `globMatch pattern name` decides
whether `name` is matched by `pattern`, where `*` matches any sequence and
`?` matches any single character (the fragment of Python `fnmatch`
exercised by this repository, case-sensitive as on POSIX). -/
def globMatch (pattern name : List Char) : Bool :=
  globMatchFuel (pattern.length + name.length + 1) pattern name

/-- Model of Python `fnmatch.fnmatch(name, pattern)`: the first argument is
the name being tested, the second the glob pattern. -/
def fnmatch (name pattern : String) : Bool :=
  globMatch pattern.toList name.toList

/-- Boolean list-prefix test used by the substring test below. -/
def isPrefixB : List Char → List Char → Bool
  | [], _ => true
  | _ :: _, [] => false
  | a :: as, b :: bs => (a == b) && isPrefixB as bs

/-- Does `needle` occur as a contiguous substring of the haystack? -/
def containsSub (needle : List Char) : List Char → Bool
  | [] => needle.isEmpty
  | c :: rest => isPrefixB needle (c :: rest) || containsSub needle rest

/-- Model of the Python substring test `needle in haystack`. -/
def strContains (haystack needle : String) : Bool :=
  containsSub needle.toList haystack.toList

/-- Model of `os.path.split(path)[-1]`: the component after the last
slash. -/
def basename (p : String) : String :=
  String.mk ((p.toList.reverse.takeWhile (fun c => c != '/')).reverse)

/-- Model of `ReStrax.renamed_path`: join the target folder with the base
name of the source path (source lines 846 to 849). -/
def renamedPath (moveTo p : String) : String :=
  moveTo ++ "/" ++ basename p

/-- One chunk descriptor from strax metadata: record count `n`,
uncompressed byte count `nbytes`, and the optional on-disk `filesize`
(absent in the model exactly when the key is absent in the metadata). -/
structure Chunk where
  n : Nat
  nbytes : Nat
  filesize : Option Nat
  deriving DecidableEq, Repr

/-- The strax metadata of one stored data directory: its chunk
descriptors, whether an exception marker is embedded, and its dtype as a
list of (field name, per-record byte size) pairs. -/
structure Metadata where
  chunks : List Chunk
  hasException : Bool
  dtype : List (String × Nat)
  deriving DecidableEq, Repr

/-- Total record count of a metadata document. -/
def sumN (md : Metadata) : Nat := (md.chunks.map Chunk.n).sum

/-- Total uncompressed byte count of a metadata document. -/
def sumNbytes (md : Metadata) : Nat := (md.chunks.map Chunk.nbytes).sum

/-- Per-record byte size of the full dtype. -/
def fieldsItemsize (dtype : List (String × Nat)) : Nat :=
  (dtype.map Prod.snd).sum

/-- One data document of a run: owning host, directory location and data
type name. -/
structure DataDoc where
  host : String
  location : String
  type : String
  deriving DecidableEq, Repr

/-- The bootstrax subdocument of a run document (upstream stage). -/
structure BootstraxDoc where
  state : String
  host : String
  deriving DecidableEq, Repr

/-- The restrax subdocument of a run document. -/
structure RestraxDoc where
  n_tries : Nat
  state : String
  started_processing : Option Nat
  host : Option String
  ended : Option Nat
  memory_usage_mb : Option (ℚ × ℚ)
  reason : Option String
  deriving DecidableEq, Repr

/-- A run document.  The `rate` field maps detector names to their
optional average sub-rate in MB/s (`None` models a rate subdocument
without an `avg` key); `restrax = none` models a run document without a
restrax field. -/
structure RunDoc where
  id : Nat
  number : Nat
  status : String
  mode : String
  rate : Option (List (String × Option ℚ))
  bootstrax : BootstraxDoc
  restrax : Option RestraxDoc
  data : List DataDoc
  deriving DecidableEq, Repr

/-- The filesystem: each directory path may hold a stored dataset,
represented by its metadata. -/
abbrev FS := String → Option Metadata

/-- Point update of the filesystem. -/
def fsSet (fs : FS) (p : String) (v : Option Metadata) : FS :=
  fun q => if q = p then v else fs q

/-- Metadata of an empty or absent directory. -/
def emptyMeta : Metadata := ⟨[], false, []⟩

/-- Total model of `strax.FileSytemBackend().get_metadata`: a missing
directory yields empty metadata (existence is checked separately, as in
the source). -/
def getMeta (fs : FS) (p : String) : Metadata :=
  (fs p).getD emptyMeta

/-- The tunable configuration and ambient state of a `ReStrax` instance:
the class attributes and constructor-set fields of the source, plus the
two external collaborators (`rechunkMeta` abstracts `strax.rechunker`,
`deepValidateOk` abstracts the byte-level `_compare_data` verdict) and the
wall-clock reading `now`. -/
structure Config where
  production : Bool
  hostname : String
  writeTo : String
  nonRegisteredFolder : String
  now : Nat
  ignoreChecks : Bool
  skipCompression : List String
  process : Option Nat
  deepCompare : Bool
  recompressMinChunks : Nat
  bypassMode : Bool
  rawRecordTypes : List String
  excludeModes : List String
  largeDataCompareThreshold : Nat
  isHeavyRateMbs : ℚ
  targetCompressor : List (String × Option String)
  targetSize : List (String × Nat)
  maxCompareBufferMb : Nat
  maxTries : Nat
  rechunkMeta : Option String → Nat → Metadata → Metadata
  deepValidateOk : Metadata → Metadata → Bool

/-- The `raw_record_types` class attribute (source lines 156 to 164). -/
def rawRecordTypesList : List String :=
  ["raw_records", "raw_records_nv", "raw_records_mv", "raw_records_he",
   "records", "records_nv", "records_mv"]

/-- The `exclude_modes` class attribute (source lines 166 to 175). -/
def excludeModesList : List String :=
  ["pmtgain", "pmtap", "exttrig", "noise", "nVeto_LASER_calibration",
   "mv_diffuserballs", "mv_fibres", "mv_darkrate"]

/-- The `target_compressor` class attribute (source lines 184 to 191);
the `_other` entry holds `None`, meaning the default compressor. -/
def defaultTargetCompressor : List (String × Option String) :=
  [("peak*", some "zstd"),
   ("_raw_record_compressor_light", some "bz2"),
   ("_raw_record_compressor_heavy", some "zstd"),
   ("_other", none)]

/-- The `target_size` class attribute (source lines 192 to 198). -/
def defaultTargetSize : List (String × Nat) :=
  [("peak*", 1500), ("_other", 1500), ("_raw_records", 5000)]

/-- A configuration holding the compiled defaults of the source in
production mode. -/
def stdConfig : Config where
  production := true
  hostname := "eb0"
  writeTo := "/data/processed"
  nonRegisteredFolder := "/data/non_registered"
  now := 0
  ignoreChecks := false
  skipCompression := ["*event*"]
  process := none
  deepCompare := false
  recompressMinChunks := 2
  bypassMode := false
  rawRecordTypes := rawRecordTypesList
  excludeModes := excludeModesList
  largeDataCompareThreshold := 5000000000
  isHeavyRateMbs := 50
  targetCompressor := defaultTargetCompressor
  targetSize := defaultTargetSize
  maxCompareBufferMb := 5000
  maxTries := 5
  rechunkMeta := fun _ _ md => md
  deepValidateOk := fun _ _ => true

/-- Key lookup in an ordered association list (Python `dict.__getitem__`
restricted to the keys occurring in this repository's tables). -/
def lookupKey {α : Type} (d : List (String × α)) (k : String) : Option α :=
  (d.find? (fun kv => kv.1 == k)).map Prod.snd

/-- Python `dict.get(key, default)`. -/
def dGet {α : Type} (d : List (String × α)) (k : String) (dflt : α) : α :=
  (lookupKey d k).getD dflt

/-- Model of MongoDB `update_one(filter, update)`: modify the first
document matching the filter; the boolean reports whether a document
matched. -/
def updateOne (filter : RunDoc → Bool) (mod : RunDoc → RunDoc) :
    List RunDoc → Bool × List RunDoc
  | [] => (false, [])
  | d :: ds =>
    if filter d then (true, mod d :: ds)
    else
      let r := updateOne filter mod ds
      (r.1, d :: r.2)

/-- The query filter of the update issued by `ReStrax.set_restrax_busy`
(source lines 344 to 347): it matches on the run's `_id` only. -/
def busyFilter (snap d : RunDoc) : Bool :=
  d.id == snap.id

/-- The restrax subdocument written by `set_restrax_busy` (source lines
336 to 343), computed from the caller's snapshot of the run document. -/
def busyRestrax (cfg : Config) (snap : RunDoc) : RestraxDoc where
  n_tries := match snap.restrax with
    | none => 1
    | some r => r.n_tries + 1
  state := "busy"
  started_processing := some cfg.now
  host := some cfg.hostname
  ended := none
  memory_usage_mb := none
  reason := none

/-- Model of `ReStrax.set_restrax_busy` (source lines 332 to 347): in
production, replace the whole `restrax` field of the first document whose
`_id` equals the snapshot's; outside production no update is issued
(`none`). -/
def setRestraxBusy (cfg : Config) (snap : RunDoc) (coll : List RunDoc) :
    Option Bool × List RunDoc :=
  if !cfg.production then (none, coll)
  else
    let r := updateOne (busyFilter snap)
      (fun d => { d with restrax := some (busyRestrax cfg snap) }) coll
    (some r.1, r.2)

/-- The restrax subdocument created by a nested `$set` when the run
document has no restrax field yet. -/
def defaultRestrax : RestraxDoc :=
  ⟨0, "", none, none, none, none, none⟩

/-- Average of a list of memory samples (numpy `average`, on the nonempty
sample lists produced by the memory profiler). -/
def listAvg (l : List ℚ) : ℚ :=
  if l.length = 0 then 0 else l.foldl (· + ·) 0 / l.length

/-- Maximum of a list of memory samples (numpy `max`, on nonempty
lists). -/
def listMax (l : List ℚ) : ℚ := l.foldl max 0

/-- Model of `ReStrax.set_restrax_done` (source lines 349 to 364): in
production, `$set` the nested fields `restrax.state`, `restrax.ended` and
`restrax.memory_usage_mb` of the document keyed by `_id`.  The `n_tries`
field is untouched. -/
def setRestraxDone (cfg : Config) (snap : RunDoc) (mem : List ℚ)
    (coll : List RunDoc) : Option Bool × List RunDoc :=
  if !cfg.production then (none, coll)
  else
    let mod := fun (d : RunDoc) =>
      let r0 := d.restrax.getD defaultRestrax
      { d with restrax := some { r0 with
          state := "done"
          ended := some cfg.now
          memory_usage_mb := some (listAvg mem, listMax mem) } }
    let r := updateOne (busyFilter snap) mod coll
    (some r.1, r.2)

/-- Model of `ReStrax.set_restrax_failed` (source lines 366 to 392): in
production, first `$set` the nested fields `restrax.state`,
`restrax.ended`, `restrax.reason`, then a second update `$inc`rements
`restrax.n_tries` by one.  The escalation warning is emitted when the
caller's snapshot already records at least `max_tries` tries (boolean
component of the result); it is checked outside the production guard. -/
def setRestraxFailed (cfg : Config) (snap : RunDoc) (reason : String)
    (coll : List RunDoc) : Option Bool × List RunDoc × Bool :=
  let escalate :=
    Nat.ble cfg.maxTries ((snap.restrax.map RestraxDoc.n_tries).getD 0)
  if !cfg.production then (none, coll, escalate)
  else
    let m1 := fun (d : RunDoc) =>
      let r0 := d.restrax.getD defaultRestrax
      { d with restrax := some { r0 with
          state := "failed"
          ended := some cfg.now
          reason := some reason } }
    let u1 := updateOne (busyFilter snap) m1 coll
    let m2 := fun (d : RunDoc) =>
      let r0 := d.restrax.getD defaultRestrax
      { d with restrax := some { r0 with n_tries := r0.n_tries + 1 } }
    let u2 := updateOne (busyFilter snap) m2 u1.2
    (some u2.1, u2.2, escalate)

/-- Is the `--process <number>` filter active?  Python tests the argument
for truthiness, so `0` deactivates the filter like `None` does. -/
def processActive (cfg : Config) : Bool :=
  match cfg.process with
  | none => false
  | some n => n != 0

/-- Does the document satisfy the optional `number` clause added by
`--process`? -/
def processOk (cfg : Config) (d : RunDoc) : Bool :=
  !processActive cfg || d.number == (cfg.process.getD 0)

/-- The primary query of `_find_production_work` (source lines 307 to
314): unclaimed (`restrax` absent), upstream finished, owned by this
host. -/
def primaryQuery (cfg : Config) (d : RunDoc) : Bool :=
  d.status == "eb_finished_pre" && d.restrax.isNone &&
  d.bootstrax.state == "done" && d.bootstrax.host == cfg.hostname &&
  processOk cfg d

/-- The fallback query of `_find_production_work` (source lines 318 to
324): the `restrax: None` clause is popped and replaced by
`restrax.n_tries < max_tries + 1` and `restrax.state != done`.  A
document without a restrax field does not satisfy the `$lt` clause on the
missing `n_tries`. -/
def fallbackQuery (cfg : Config) (d : RunDoc) : Bool :=
  d.status == "eb_finished_pre" && d.bootstrax.state == "done" &&
  d.bootstrax.host == cfg.hostname && processOk cfg d &&
  (match d.restrax with
   | none => false
   | some rd => decide (rd.n_tries < cfg.maxTries + 1) && rd.state != "done")

/-- Stable insertion into a list sorted by a key, descending. -/
def insertDescBy {α : Type} (key : α → Nat) (x : α) : List α → List α
  | [] => [x]
  | y :: ys => if key y ≤ key x then x :: y :: ys else y :: insertDescBy key x ys

/-- Stable sort by a key, descending (the `sort=[("_id", -1)]` of the
Mongo queries, and Python `sorted(..., reverse=True)`). -/
def sortDescBy {α : Type} (key : α → Nat) : List α → List α
  | [] => []
  | x :: xs => insertDescBy key x (sortDescBy key xs)

/-- Model of `ReStrax._find_production_work` (source lines 305 to 330):
run the primary query with a descending `_id` sort; if it returns nothing,
run the fallback query.  (The in-place enrichment of the `data` field is
immaterial to the claims and not modelled.) -/
def findProductionWork (cfg : Config) (coll : List RunDoc) : Option RunDoc :=
  let sorted := sortDescBy RunDoc.id coll
  match sorted.find? (primaryQuery cfg) with
  | some d => some d
  | none => sorted.find? (fallbackQuery cfg)

/-- The total data rate of a run (source lines 552 to 554): the sum over
all detectors of their `avg` sub-rate, defaulting a missing `rate` field
to a single anonymous detector and a missing `avg` key to 100 MB/s. -/
def computeRate (run : RunDoc) : ℚ :=
  ((run.rate.getD [("none", none)]).map (fun d => d.2.getD 100)).sum

/-- Model of `ReStrax._fnmatch_from_doc` (source lines 585 to 590): walk
the table in order and return the first value whose entry satisfies the
`fnmatch` test, else the `_other` entry if present.  NB: the source passes
the table key as the name and the looked-up data type as the pattern,
i.e. `fnmatch.fnmatch(target, target_key)`; the model reproduces that
argument order faithfully. -/
def fnmatchFromDoc {α : Type} (d : List (String × α)) (targetKey : String) :
    Option α :=
  match d.find? (fun kv => fnmatch kv.1 targetKey) with
  | some kv => some kv.2
  | none => lookupKey d "_other"

/-- The `n_tries` a run document records, `0` when absent
(`run_doc.get("restrax", {}).get("n_tries", 0)`). -/
def snapTries (run : RunDoc) : Nat :=
  (run.restrax.map RestraxDoc.n_tries).getD 0

/-- Model of `ReStrax.get_compressor_and_size` (source lines 540 to 583).
For raw-record families: fixed `_raw_records` target size, heavy
compressor when the rate exceeds `is_heavy_rate_mbs` or the retry count
exceeds `max_tries // 2`, else the light compressor.  Otherwise: first
`fnmatch` lookup in the compressor and size tables with a 1500 MB size
fallback.  Finally the blosc safety clamp caps the size at 1500 MB. -/
def getCompressorAndSize (cfg : Config) (run : RunDoc) (doc : DataDoc) :
    Option String × Nat :=
  let dtype := doc.type
  let pair :=
    if cfg.rawRecordTypes.contains dtype then
      let rate := computeRate run
      let goFast :=
        decide (cfg.isHeavyRateMbs < rate) ||
        decide (cfg.maxTries / 2 < snapTries run)
      ((if goFast then dGet cfg.targetCompressor "_raw_record_compressor_heavy" (some "bz2")
        else dGet cfg.targetCompressor "_raw_record_compressor_light" (some "zstd")),
       dGet cfg.targetSize "_raw_records" 5000)
    else
      ((fnmatchFromDoc cfg.targetCompressor dtype).join,
       (fnmatchFromDoc cfg.targetSize dtype).getD 1500)
  if pair.1 == some "blosc" && decide (1500 < pair.2) then (pair.1, 1500)
  else pair

/-- Chunk count of a stored dataset, as queried by
`should_skip_compression`. -/
def nChunks (fs : FS) (p : String) : Nat :=
  (getMeta fs p).chunks.length

/-- Model of `ReStrax.should_skip_compression` (source lines 592 to 622):
skip when in bypass mode; when an excluded mode is a substring of the
run's mode; when the type is the live feed; when the type matches a
configured skip glob (here `fnmatch` receives the type as the name, the
configured glob as the pattern, the correct order); or when the chunk
count is at most `recompress_min_chunks` and the type is not a raw-record
family. -/
def shouldSkipCompression (cfg : Config) (fs : FS) (run : RunDoc)
    (doc : DataDoc) : Bool :=
  if cfg.bypassMode then true
  else if cfg.excludeModes.any (fun m => strContains run.mode m) then true
  else if doc.type == "live_data" then true
  else if cfg.skipCompression.any (fun g => fnmatch doc.type g) then true
  else if decide (nChunks fs doc.location ≤ cfg.recompressMinChunks) &&
      !(cfg.rawRecordTypes.contains doc.type) then true
  else false

/-- Model of `ReStrax._move_dir` (source lines 865 to 868): in production,
`os.rename` the directory; otherwise only log. -/
def moveDir (cfg : Config) (fs : FS) (source dest : String) : FS :=
  if cfg.production then fsSet (fsSet fs dest (fs source)) source none
  else fs

/-- Model of `ReStrax._bypass_for_data_doc` (source lines 402 to 421): if
the destination already exists, first move it to the non-registered
(quarantine) folder and alert; then, if the source no longer exists,
alert and return without raising; otherwise move the source to the
destination.  The second component collects the operator alerts
(`log_warning` calls). -/
def bypassForDataDoc (cfg : Config) (fs : FS) (doc : DataDoc) :
    FS × List String :=
  let source := doc.location
  let dest := renamedPath cfg.writeTo source
  let step1 :=
    if (fs dest).isSome then
      let moveTo := renamedPath cfg.nonRegisteredFolder source
      (moveDir cfg fs dest moveTo,
       [dest ++ " already exists?! Backing up to " ++ moveTo])
    else (fs, [])
  if (step1.1 source).isNone then
    (step1.1,
     step1.2 ++ ["Trying to move " ++ source ++ " -> " ++ dest ++
       " but " ++ source ++ " does not exist?!"])
  else (moveDir cfg step1.1 source dest, step1.2)

/-- Conditional singleton error message. -/
def errIf (b : Bool) (msg : String) : List String :=
  if b then [msg] else []

/-- The error messages `do_checks` collects for a single data document
(source lines 636 to 662), in source order: missing source directory,
missing destination directory, a destination chunk with records but a
falsy file size, an embedded exception marker, and a record-count
mismatch between source and destination. -/
def docErrors (cfg : Config) (fs : FS) (doc : DataDoc) : List String :=
  let dirIn := doc.location
  let dirOut := renamedPath cfg.writeTo dirIn
  let mdIn := getMeta fs dirIn
  let mdOut := getMeta fs dirOut
  errIf (fs dirIn).isNone (dirIn ++ " does not exists.") ++
  errIf (fs dirOut).isNone (dirOut ++ " does not exists.") ++
  errIf (mdOut.chunks.any (fun c => c.n != 0 && c.filesize == some 0))
    ("For " ++ dirOut ++ ", at least one doc failed to write") ++
  errIf mdOut.hasException "Writing error!" ++
  errIf (sumN mdIn != sumN mdOut) "Rechunked data has fewer entries?!"

/-- Model of `ReStrax.do_checks` (source lines 624 to 666): unless checks
are disabled, collect the error messages of every document and raise a
single aggregated `ValueError` exactly when any were collected. -/
def doChecks (cfg : Config) (fs : FS) (docs : List DataDoc) :
    Except String Unit :=
  if cfg.ignoreChecks then .ok ()
  else
    let errors := docs.flatMap (docErrors cfg fs)
    if errors.isEmpty then .ok ()
    else .error ("Doc had errors: " ++ String.intercalate " and " errors)

/-- Size key used to sort data documents, largest first (source lines 463
to 467). -/
def docSize (fs : FS) (d : DataDoc) : Nat :=
  sumNbytes (getMeta fs d.location)

/-- Model of `ReStrax._get_data_docs` (source lines 455 to 474): keep the
data documents owned by this host and sort them by their stored size,
largest first. -/
def getDataDocs (cfg : Config) (fs : FS) (run : RunDoc) : List DataDoc :=
  sortDescBy (docSize fs) (run.data.filter (fun d => d.host == cfg.hostname))

/-- The transform set of a run: the data documents that do not satisfy
`should_skip_compression` (source line 431). -/
def compressSet (cfg : Config) (fs : FS) (run : RunDoc) : List DataDoc :=
  (getDataDocs cfg fs run).filter
    (fun d => !(shouldSkipCompression cfg fs run d))

/-- The skip set of a run: the data documents that satisfy
`should_skip_compression` (source line 432). -/
def skipSet (cfg : Config) (fs : FS) (run : RunDoc) : List DataDoc :=
  (getDataDocs cfg fs run).filter (shouldSkipCompression cfg fs run)

/-- Model of `ReStrax._rechunk_per_doc` (source lines 508 to 534): fail
with `FileNotFoundError` when the source directory is missing, else write
the rechunked dataset (the external `strax.rechunker`, abstracted by
`cfg.rechunkMeta` applied to the selected compressor and target size)
under the output folder. -/
def rechunkPerDoc (cfg : Config) (run : RunDoc) (fs : FS) (doc : DataDoc) :
    Except String FS :=
  if (fs doc.location).isNone then
    .error ("FileNotFoundError: " ++ doc.location)
  else
    let cs := getCompressorAndSize cfg run doc
    .ok (fsSet fs (renamedPath cfg.writeTo doc.location)
      (some (cfg.rechunkMeta cs.1 cs.2 (getMeta fs doc.location))))

/-- Model of `ReStrax.rechunk_docs` (source lines 480 to 506) in its
sequential branch: process the documents in order, recording every
document dispatched to `_rechunk_per_doc`; stop at the first failure. -/
def rechunkDocs (cfg : Config) (run : RunDoc) (fs : FS) :
    List DataDoc → Option String × FS × List DataDoc
  | [] => (none, fs, [])
  | d :: ds =>
    match rechunkPerDoc cfg run fs d with
    | .error e => (some e, fs, [d])
    | .ok fs1 =>
      let r := rechunkDocs cfg run fs1 ds
      (r.1, r.2.1, d :: r.2.2)

/-- Model of `ReStrax.validate_data` (source lines 668 to 695), guarded by
`deep_compare` as at the call site (source line 440): raise on the first
document whose source and destination fail the abstracted byte-level
comparison. -/
def validateData (cfg : Config) (fs : FS) (docs : List DataDoc) :
    Except String Unit :=
  if !cfg.deepCompare then .ok ()
  else
    match docs.find? (fun d =>
        !(cfg.deepValidateOk (getMeta fs d.location)
          (getMeta fs (renamedPath cfg.writeTo d.location)))) with
    | some d => .error ("Data was not the same when comparing " ++ d.location)
    | none => .ok ()

/-- Verbatim moves of the whole skip set (source lines 445 to 446),
accumulating alerts. -/
def bypassAll (cfg : Config) (fs : FS) (docs : List DataDoc) :
    FS × List String :=
  docs.foldl (fun p d =>
    let q := bypassForDataDoc cfg p.1 d
    (q.1, p.2 ++ q.2)) (fs, [])

/-- Model of `ReStrax.finalize_execute` (source lines 784 to 835): this
step only updates the document store (per-document location/metadata
fields and the upload status); it neither writes nor deletes anything on
the filesystem.  The model returns the destinations whose data documents
are updated, as a ghost observation. -/
def finalizeExecute (cfg : Config) (docs : List DataDoc) : List String :=
  if !cfg.production || docs.isEmpty then []
  else (docs.filter (fun d => d.host == cfg.hostname)).map
    (fun d => renamedPath cfg.writeTo d.location)

/-- Model of `ReStrax.remove_old_docs` (source lines 837 to 841): for each
document in order, assert that its location contains `pre_processed`,
then remove that directory (`shutil.rmtree`, performed only in
production).  The third component records the directories actually
removed. -/
def removeOldDocs (cfg : Config) (fs : FS) :
    List DataDoc → Option String × FS × List String
  | [] => (none, fs, [])
  | d :: ds =>
    if strContains d.location "pre_processed" then
      let fs1 := if cfg.production then fsSet fs d.location none else fs
      let rm := if cfg.production then [d.location] else []
      let r := removeOldDocs cfg fs1 ds
      (r.1, r.2.1, rm ++ r.2.2)
    else (some "AssertionError", fs, [])

/-- The observable outcome of `handle_run` on one run: the exception (if
any), the final filesystem, the documents dispatched to the rechunker,
the operator alerts of the bypass moves, the directories deleted, and the
data documents finalized in the store. -/
structure RunTrace where
  error : Option String
  fs : FS
  rechunked : List DataDoc
  alerts : List String
  removed : List String
  dbUpdated : List String

/-- Model of `ReStrax.handle_run` (source lines 423 to 453): partition the
run's data documents into transform and skip sets; rechunk the transform
set; run the consistency checks and (optionally) the deep validator; move
the skip set verbatim; finalize the bookkeeping; finally delete the
pre-transform copies of the transform set only.  Any failing step aborts
the run with its exception and nothing is deleted. -/
def handleRun (cfg : Config) (fs0 : FS) (run : RunDoc) : RunTrace :=
  let cds := compressSet cfg fs0 run
  let sds := skipSet cfg fs0 run
  let r1 := rechunkDocs cfg run fs0 cds
  match r1.1 with
  | some e => ⟨some e, r1.2.1, r1.2.2, [], [], []⟩
  | none =>
    match doChecks cfg r1.2.1 cds with
    | .error e => ⟨some e, r1.2.1, r1.2.2, [], [], []⟩
    | .ok _ =>
      match validateData cfg r1.2.1 cds with
      | .error e => ⟨some e, r1.2.1, r1.2.2, [], [], []⟩
      | .ok _ =>
        let b := bypassAll cfg r1.2.1 sds
        let dbU := finalizeExecute cfg (getDataDocs cfg fs0 run)
        let r2 := removeOldDocs cfg b.1 cds
        ⟨r2.1, r2.2.1, r1.2.2, b.2, r2.2.2, dbU⟩

/-- The memory plan `_get_data_from_dir` adopts (source lines 737 to
762): the per-record byte size of the kept columns, whether only
aggregate sums will be accumulated, and whether the downgrade to sums was
logged (it is logged exactly when decided here rather than preset by the
caller). -/
structure LoadPlan where
  compareSum : Bool
  bufItemsize : Nat
  loggedSumDowngrade : Bool
  deriving DecidableEq, Repr

/-- Per-record byte size of the columns kept by `keep_column` (the
`res_dtype` of source lines 739 to 744). -/
def keptItemsize (dtype : List (String × Nat)) (keep : Option String) : Nat :=
  match keep with
  | none => fieldsItemsize dtype
  | some col => ((dtype.filter (fun f => f.1 == col)).map Prod.snd).sum

/-- The buffer-size decision of `ReStrax._get_data_from_dir` (source lines
746 to 762): switch to aggregate sums when the load buffer
`itemsize * data_len` would exceed `max_compare_buffer_mb` megabytes, or
when the caller already requested sums. -/
def getDataPlan (cfg : Config) (md : Metadata) (keep : Option String)
    (compareSumIn : Bool) : LoadPlan :=
  let items := keptItemsize md.dtype keep
  let dataLen := sumN md
  let tooBig := decide (cfg.maxCompareBufferMb * 1000000 < items * dataLen)
  { compareSum := tooBig || compareSumIn
    bufItemsize := items
    loggedSumDowngrade := (tooBig || compareSumIn) && !compareSumIn }

/-- The comparison policy `ReStrax._validate_data_per_doc` adopts for one
document (source lines 672 to 688): restrict to the `time` column exactly
when the source metadata reports more than `large_data_compare_threshold`
bytes (the boolean component, which the source logs), then plan the load
with `_compare_sum` unset. -/
def validatePlan (cfg : Config) (md : Metadata) : Bool × LoadPlan :=
  let isLarge := decide (cfg.largeDataCompareThreshold < sumNbytes md)
  (isLarge, getDataPlan cfg md (if isLarge then some "time" else none) false)

/-- The per-document violation condition of the consistency checker, as
the specification states it: missing source or destination directory, a
destination chunk with records but a falsy file size, an embedded
exception marker, or a record-count mismatch. -/
def docViolation (cfg : Config) (fs : FS) (doc : DataDoc) : Prop :=
  fs doc.location = none ∨
  fs (renamedPath cfg.writeTo doc.location) = none ∨
  (∃ c ∈ (getMeta fs (renamedPath cfg.writeTo doc.location)).chunks,
    c.n ≠ 0 ∧ c.filesize = some 0) ∨
  (getMeta fs (renamedPath cfg.writeTo doc.location)).hasException = true ∨
  sumN (getMeta fs doc.location) ≠
    sumN (getMeta fs (renamedPath cfg.writeTo doc.location))

instance (cfg : Config) (fs : FS) (doc : DataDoc) :
    Decidable (docViolation cfg fs doc) := by
  unfold docViolation; infer_instance

/-- The filesystem after the rechunk stage of `handle_run`. -/
def postRechunkFS (cfg : Config) (fs : FS) (run : RunDoc) : FS :=
  (rechunkDocs cfg run fs (compressSet cfg fs run)).2.1

/-- The filesystem after the verbatim moves of the skip set. -/
def postBypassFS (cfg : Config) (fs : FS) (run : RunDoc) : FS :=
  (bypassAll cfg (postRechunkFS cfg fs run) (skipSet cfg fs run)).1

/-- All stages of `handle_run` before the deletion step completed without
raising: the rechunker, the consistency checks and the (optional) deep
validation. -/
def stagesOk (cfg : Config) (fs : FS) (run : RunDoc) : Prop :=
  (rechunkDocs cfg run fs (compressSet cfg fs run)).1 = none ∧
  doChecks cfg (postRechunkFS cfg fs run) (compressSet cfg fs run) = .ok () ∧
  validateData cfg (postRechunkFS cfg fs run) (compressSet cfg fs run) = .ok ()

/- Concrete instances used by the witnesses and counterexamples below. -/

/-- A freshly finished, unclaimed run document on this host. -/
def c1Snap : RunDoc where
  id := 1
  number := 100001
  status := "eb_finished_pre"
  mode := "tpc_dark"
  rate := none
  bootstrax := ⟨"done", "eb0"⟩
  restrax := none
  data := []

/-- The collection after a first claim of `c1Snap`. -/
def c1After1 : Option Bool × List RunDoc :=
  setRestraxBusy stdConfig c1Snap [c1Snap]

/-- A second claim of the same run, issued from the same stale snapshot,
against the collection already claimed by the first orchestrator. -/
def c1After2 : Option Bool × List RunDoc :=
  setRestraxBusy stdConfig c1Snap c1After1.2

/-- A previously failed run with `n_tries` equal to `max_tries`. -/
def c2FailedRun : RunDoc :=
  { c1Snap with
    id := 7
    restrax := some ⟨5, "failed", some 0, some "eb0", some 1, none, some "err"⟩ }

/-- A previously failed run with `n_tries` beyond `max_tries + 1`. -/
def c2ExhaustedRun : RunDoc :=
  { c1Snap with
    id := 8
    restrax := some ⟨6, "failed", some 0, some "eb0", some 1, none, some "err"⟩ }

/-- A run already claimed twice (its restrax field records two tries). -/
def c3Doc : RunDoc :=
  { c1Snap with restrax := some ⟨2, "failed", some 0, some "eb0", some 1, none, some "x"⟩ }

/-- Source directory of the consistency-check witness. -/
def c4Loc : String := "/data/pre_processed/000100-peaks-ab"

/-- Source metadata: 15 records over two chunks. -/
def c4MdIn : Metadata :=
  ⟨[⟨10, 1000, some 500⟩, ⟨5, 500, some 250⟩], false, [("time", 8)]⟩

/-- Deliberately truncated destination metadata: only 10 records. -/
def c4MdOutBad : Metadata :=
  ⟨[⟨10, 1000, some 500⟩], false, [("time", 8)]⟩

/-- The data document of the consistency-check witness. -/
def c4Doc : DataDoc := ⟨"eb0", c4Loc, "peaks"⟩

/-- A filesystem whose destination copy is truncated. -/
def fsC4 : FS :=
  fsSet (fsSet (fun _ => none) c4Loc (some c4MdIn))
    (renamedPath stdConfig.writeTo c4Loc) (some c4MdOutBad)

/-- Run number 100001 with an 80 MB/s total rate. -/
def c5Run : RunDoc := { c1Snap with rate := some [("tpc", some 80)] }

/-- A raw-records data document. -/
def c5Doc : DataDoc := ⟨"eb0", "/data/pre_processed/000100-raw_records-ab", "raw_records"⟩

/-- A `peaks` data document, the example of the pattern table. -/
def c6PeaksDoc : DataDoc := ⟨"eb0", "/data/pre_processed/000100-peaks-ab", "peaks"⟩

/-- Location of a raw-records dataset of the end-to-end scenario. -/
def c7RawLoc : String := "/data/pre_processed/000100-raw_records-ab"

/-- Location of an event-level dataset of the end-to-end scenario. -/
def c7EventLoc : String := "/data/pre_processed/000100-event_info-ab"

/-- The raw-records data document (transform set). -/
def c7RawDoc : DataDoc := ⟨"eb0", c7RawLoc, "raw_records"⟩

/-- The event-level data document (skip set: matches the default skip
glob). -/
def c7EventDoc : DataDoc := ⟨"eb0", c7EventLoc, "event_info"⟩

/-- A run holding both data documents. -/
def c7Run : RunDoc := { c1Snap with data := [c7RawDoc, c7EventDoc] }

/-- Healthy three-chunk metadata shared by the scenario's datasets. -/
def c7Md : Metadata :=
  ⟨[⟨10, 1000, some 500⟩, ⟨5, 500, some 250⟩, ⟨1, 100, some 50⟩], false, [("time", 8)]⟩

/-- The scenario filesystem: both source directories present, no
destinations yet. -/
def fsC7 : FS :=
  fsSet (fsSet (fun _ => none) c7RawLoc (some c7Md)) c7EventLoc (some c7Md)

/-- Source directory of the bypass-safety witness. -/
def c8SrcLoc : String := "/data/pre_processed/000100-live_data-ab"

/-- The bypassed data document. -/
def c8Doc : DataDoc := ⟨"eb0", c8SrcLoc, "live_data"⟩

/-- Metadata of the source copy. -/
def c8MdS : Metadata := ⟨[⟨3, 300, some 100⟩], false, [("time", 8)]⟩

/-- Metadata of the unexpected pre-existing destination copy. -/
def c8MdD : Metadata := ⟨[⟨9, 900, some 400⟩], false, [("time", 8)]⟩

/-- A filesystem in which the destination of the bypassed document
already exists. -/
def fsC8 : FS :=
  fsSet (fsSet (fun _ => none) c8SrcLoc (some c8MdS))
    (renamedPath stdConfig.writeTo c8SrcLoc) (some c8MdD)

/-- Metadata sized just above the single-field comparison threshold:
500001 records of 10000 bytes each (5000010000 bytes total), with an
8-byte time column. -/
def c10LargeMd : Metadata :=
  ⟨[⟨500001, 5000010000, none⟩], false, [("time", 8), ("data", 9992)]⟩

/-! ## Helper lemmas -/

theorem errIf_eq_nil_iff (b : Bool) (m : String) : errIf b m = [] ↔ b = false := by
  cases b <;> simp [errIf]

theorem flatMap_nil_iff {α β : Type} (f : α → List β) (l : List α) :
    l.flatMap f = [] ↔ ∀ a ∈ l, f a = [] := by
  induction l with
  | nil => simp
  | cons a as ih => simp [List.flatMap_cons, List.append_eq_nil, ih]

theorem anyBad_eq_false_iff (l : List Chunk) :
    (l.any fun c => c.n != 0 && c.filesize == some 0) = false ↔
      ∀ c ∈ l, c.n ≠ 0 → c.filesize ≠ some 0 := by
  rw [List.any_eq_false]
  simp only [Bool.and_eq_true, bne_iff_ne, beq_iff_eq, not_and]

theorem docErrors_eq_nil_iff (cfg : Config) (fs : FS) (doc : DataDoc) :
    docErrors cfg fs doc = [] ↔ ¬ docViolation cfg fs doc := by
  unfold docErrors docViolation
  simp only [List.append_eq_nil, errIf_eq_nil_iff, anyBad_eq_false_iff,
    Option.isNone_eq_false_iff, Option.isSome_iff_ne_none, bne_eq_false_iff_eq]
  push_neg
  constructor
  · rintro ⟨⟨⟨⟨h1, h2⟩, h3⟩, h4⟩, h5⟩
    exact ⟨h1, h2, h3, by simp [h4], h5⟩
  · rintro ⟨h1, h2, h3, h4, h5⟩
    exact ⟨⟨⟨⟨h1, h2⟩, h3⟩, Bool.eq_false_iff.mpr h4⟩, h5⟩

theorem mem_insertDescBy {α : Type} (key : α → Nat) (x y : α) (l : List α) :
    y ∈ insertDescBy key x l ↔ y = x ∨ y ∈ l := by
  induction l with
  | nil => simp [insertDescBy]
  | cons a as ih =>
    simp only [insertDescBy]
    split
    · simp [List.mem_cons]
    · simp only [List.mem_cons, ih]
      tauto

theorem mem_sortDescBy {α : Type} (key : α → Nat) (x : α) (l : List α) :
    x ∈ sortDescBy key l ↔ x ∈ l := by
  induction l with
  | nil => simp [sortDescBy]
  | cons a as ih => simp [sortDescBy, mem_insertDescBy, ih]

theorem nat_div_two_lt_iff (m n : ℕ) :
    m / 2 < n ↔ (m : ℚ) / 2 < (n : ℚ) := by
  rw [Nat.div_lt_iff_lt_mul (by norm_num : (0:ℕ) < 2),
    div_lt_iff₀ (by norm_num : (0:ℚ) < 2)]
  exact_mod_cast Iff.rfl

theorem updateOne_matched (f : RunDoc → Bool) (m : RunDoc → RunDoc)
    (hf : ∀ d, f (m d) = f d) (l : List RunDoc) (h : ∃ d ∈ l, f d = true) :
    (updateOne f m l).1 = true ∧ ∃ d ∈ (updateOne f m l).2, f d = true := by
  induction l with
  | nil => simp at h
  | cons d ds ih =>
    by_cases hd : f d = true
    · refine ⟨by simp [updateOne, hd], ?_⟩
      exact ⟨m d, by simp [updateOne, hd], by rw [hf]; exact hd⟩
    · obtain ⟨e, he, hfe⟩ := h
      rcases List.mem_cons.mp he with rfl | he2
      · exact absurd hfe hd
      · obtain ⟨ih1, e2, he3, hfe2⟩ := ih ⟨e, he2, hfe⟩
        refine ⟨by simp [updateOne, hd, ih1], e2, ?_, hfe2⟩
        simp [updateOne, hd, List.mem_cons]
        right
        exact he3

theorem rechunkDocs_sub (cfg : Config) (run : RunDoc) (fs : FS)
    (l : List DataDoc) : ∀ d ∈ (rechunkDocs cfg run fs l).2.2, d ∈ l := by
  induction l generalizing fs with
  | nil => simp [rechunkDocs]
  | cons a as ih =>
    intro d hd
    simp only [rechunkDocs] at hd
    rcases h : rechunkPerDoc cfg run fs a with e | fs1
    · rw [h] at hd
      simp only [List.mem_singleton] at hd
      simp [hd]
    · rw [h] at hd
      simp only [List.mem_cons] at hd
      rcases hd with rfl | hd
      · exact List.mem_cons_self ..
      · exact List.mem_cons_of_mem _ (ih fs1 d hd)

theorem removeOldDocs_sub (cfg : Config) (fs : FS) (l : List DataDoc) :
    ∀ p ∈ (removeOldDocs cfg fs l).2.2, ∃ d ∈ l, p = d.location := by
  induction l generalizing fs with
  | nil => simp [removeOldDocs]
  | cons a as ih =>
    intro p hp
    simp only [removeOldDocs] at hp
    by_cases hc : strContains a.location "pre_processed" = true
    · rw [if_pos hc] at hp
      rcases List.mem_append.mp hp with h | h
      · cases hpr : cfg.production <;> rw [hpr] at h <;> simp at h
        exact ⟨a, List.mem_cons_self .., h⟩
      · obtain ⟨d, hd, rfl⟩ := ih _ p h
        exact ⟨d, List.mem_cons_of_mem _ hd, rfl⟩
    · rw [if_neg hc] at hp
      simp at hp

theorem removeOldDocs_none (cfg : Config) (fs : FS) (l : List DataDoc)
    (hp : cfg.production = true)
    (h : (removeOldDocs cfg fs l).1 = none) :
    (removeOldDocs cfg fs l).2.2 = l.map DataDoc.location := by
  induction l generalizing fs with
  | nil => simp [removeOldDocs]
  | cons a as ih =>
    by_cases hc : strContains a.location "pre_processed" = true
    · simp only [removeOldDocs, hc, if_true, hp] at h ⊢
      rw [ih _ h]
      simp
    · simp [removeOldDocs, hc] at h

theorem postRechunkFS_eq (cfg : Config) (fs : FS) (run : RunDoc)
    {e : Option String} {fs1 : FS} {rch : List DataDoc}
    (h : rechunkDocs cfg run fs (compressSet cfg fs run) = (e, fs1, rch)) :
    postRechunkFS cfg fs run = fs1 := by
  simp [postRechunkFS, h]

theorem handleRun_rechunked (cfg : Config) (fs : FS) (run : RunDoc) :
    (handleRun cfg fs run).rechunked =
      (rechunkDocs cfg run fs (compressSet cfg fs run)).2.2 := by
  rcases h : rechunkDocs cfg run fs (compressSet cfg fs run) with ⟨_ | e, fs1, rch⟩
  · rcases h2 : doChecks cfg fs1 (compressSet cfg fs run) with e2 | ⟨⟩
    · simp [handleRun, h, h2]
    · rcases h3 : validateData cfg fs1 (compressSet cfg fs run) with e3 | ⟨⟩
      · simp [handleRun, h, h2, h3]
      · simp [handleRun, h, h2, h3]
  · simp [handleRun, h]

theorem handleRun_split (cfg : Config) (fs : FS) (run : RunDoc) :
    ((handleRun cfg fs run).removed = [] ∧
      (handleRun cfg fs run).error.isSome = true ∧ ¬ stagesOk cfg fs run) ∨
    (stagesOk cfg fs run ∧
      (handleRun cfg fs run).removed =
        (removeOldDocs cfg (postBypassFS cfg fs run) (compressSet cfg fs run)).2.2 ∧
      (handleRun cfg fs run).error =
        (removeOldDocs cfg (postBypassFS cfg fs run) (compressSet cfg fs run)).1) := by
  rcases h : rechunkDocs cfg run fs (compressSet cfg fs run) with ⟨_ | e, fs1, rch⟩
  · have hpost := postRechunkFS_eq cfg fs run h
    rcases h2 : doChecks cfg fs1 (compressSet cfg fs run) with e2 | ⟨⟩
    · left
      refine ⟨by simp [handleRun, h, h2], by simp [handleRun, h, h2], ?_⟩
      rintro ⟨-, hdc, -⟩
      rw [hpost, h2] at hdc
      exact Except.noConfusion hdc
    · rcases h3 : validateData cfg fs1 (compressSet cfg fs run) with e3 | ⟨⟩
      · left
        refine ⟨by simp [handleRun, h, h2, h3], by simp [handleRun, h, h2, h3], ?_⟩
        rintro ⟨-, -, hv⟩
        rw [hpost, h3] at hv
        exact Except.noConfusion hv
      · right
        refine ⟨⟨by rw [h], by rw [hpost]; exact h2, by rw [hpost]; exact h3⟩, ?_, ?_⟩
        · simp [handleRun, h, h2, h3, postBypassFS, hpost]
        · simp [handleRun, h, h2, h3, postBypassFS, hpost]
  · left
    refine ⟨by simp [handleRun, h], by simp [handleRun, h], ?_⟩
    rintro ⟨hr, -, -⟩
    rw [h] at hr
    exact Option.noConfusion hr

/-! ## Claims -/

/-- C1, counterexample: the update issued by `set_restrax_busy` does not
re-check the Restrax state.  Starting from an unclaimed run, a first claim
succeeds and stores state `busy`; a second claim of the same run from the
same stale snapshot still succeeds, so it is false that exactly one of two
concurrent claim updates succeeds. -/
theorem setRestraxBusy_no_state_filter_cex :
    c1After1.1 = some true ∧
    ((c1After1.2.head?.bind RunDoc.restrax).map RestraxDoc.state) = some "busy" ∧
    c1After2.1 = some true := by decide

/-- C1, amended: in production every claim issues a single update whose
filter matches exactly on the run's identifier — it does not re-check the
Restrax state — so whenever the collection holds a document with the
claimed id, the claim update reports success, and a second claim of the
same run succeeds as well (the second overwrites the first). -/
theorem setRestraxBusy_keyed_both_succeed (cfg : Config) (snap : RunDoc)
    (coll : List RunDoc) (hp : cfg.production = true)
    (hmem : ∃ d ∈ coll, d.id = snap.id) :
    (∀ d : RunDoc, busyFilter snap d = true ↔ d.id = snap.id) ∧
    (setRestraxBusy cfg snap coll).1 = some true ∧
    (setRestraxBusy cfg snap (setRestraxBusy cfg snap coll).2).1 = some true := by
  have hf : ∀ d : RunDoc,
      busyFilter snap { d with restrax := some (busyRestrax cfg snap) } =
        busyFilter snap d := fun d => rfl
  have hmem2 : ∃ d ∈ coll, busyFilter snap d = true := by
    obtain ⟨d, hd, hid⟩ := hmem
    exact ⟨d, hd, by simp [busyFilter, hid]⟩
  obtain ⟨h1, hex⟩ := updateOne_matched (busyFilter snap)
    (fun d => { d with restrax := some (busyRestrax cfg snap) }) hf coll hmem2
  obtain ⟨h2, -⟩ := updateOne_matched (busyFilter snap)
    (fun d => { d with restrax := some (busyRestrax cfg snap) }) hf _ hex
  refine ⟨fun d => by simp [busyFilter], ?_, ?_⟩
  · simp [setRestraxBusy, hp, h1]
  · simp [setRestraxBusy, hp, h1, h2]

/-- C1, witness: the amended claim instantiated on a concrete unclaimed
run. -/
theorem setRestraxBusy_keyed_witness :
    (setRestraxBusy stdConfig c1Snap [c1Snap]).1 = some true :=
  (setRestraxBusy_keyed_both_succeed stdConfig c1Snap [c1Snap] rfl
    ⟨c1Snap, by simp, rfl⟩).2.1

/-- C2, counterexample: a previously failed run whose `n_tries` equals
`max_tries` is still returned by the production work query (the fallback
filter is `n_tries < max_tries + 1`, not `n_tries < max_tries`). -/
theorem findProductionWork_at_max_tries_cex :
    findProductionWork stdConfig [c2FailedRun] = some c2FailedRun ∧
    snapTries c2FailedRun = stdConfig.maxTries := by decide

/-- C2, amended: any run returned by `_find_production_work` satisfies the
shared base query and is either unclaimed (primary query) or carries a
restrax record with `n_tries < max_tries + 1` (equivalently at most
`max_tries`) and state other than `done`; when no document satisfies the
primary or the fallback query, `None` is returned. -/
theorem findProductionWork_fallback_bound (cfg : Config) (coll : List RunDoc) :
    (∀ d : RunDoc, findProductionWork cfg coll = some d →
      d ∈ coll ∧ d.status = "eb_finished_pre" ∧ d.bootstrax.state = "done" ∧
      d.bootstrax.host = cfg.hostname ∧
      (d.restrax = none ∨ ∃ rd, d.restrax = some rd ∧
        rd.n_tries < cfg.maxTries + 1 ∧ rd.state ≠ "done")) ∧
    ((∀ d ∈ coll, primaryQuery cfg d = false ∧ fallbackQuery cfg d = false) →
      findProductionWork cfg coll = none) := by
  constructor
  · intro d hd
    simp only [findProductionWork] at hd
    rcases hfp : (sortDescBy RunDoc.id coll).find? (primaryQuery cfg) with _ | d1
    · rw [hfp] at hd
      have hmem := (mem_sortDescBy RunDoc.id d coll).mp (List.mem_of_find?_eq_some hd)
      have hq := List.find?_some hd
      unfold fallbackQuery at hq
      simp only [Bool.and_eq_true, beq_iff_eq] at hq
      obtain ⟨⟨⟨⟨hs, hb⟩, hh⟩, -⟩, hr⟩ := hq
      rcases hrx : d.restrax with _ | rd
      · rw [hrx] at hr
        exact absurd hr (by simp)
      · rw [hrx] at hr
        simp only [Bool.and_eq_true, decide_eq_true_eq, bne_iff_ne] at hr
        exact ⟨hmem, hs, hb, hh, Or.inr ⟨rd, rfl, hr.1, hr.2⟩⟩
    · rw [hfp] at hd
      cases hd
      have hmem := (mem_sortDescBy RunDoc.id d coll).mp (List.mem_of_find?_eq_some hfp)
      have hq := List.find?_some hfp
      unfold primaryQuery at hq
      simp only [Bool.and_eq_true, beq_iff_eq, Option.isNone_iff_eq_none] at hq
      obtain ⟨⟨⟨⟨hs, hn⟩, hb⟩, hh⟩, -⟩ := hq
      exact ⟨hmem, hs, hb, hh, Or.inl hn⟩
  · intro h
    simp only [findProductionWork]
    have hp : (sortDescBy RunDoc.id coll).find? (primaryQuery cfg) = none := by
      rw [List.find?_eq_none]
      intro x hx
      simp [(h x ((mem_sortDescBy RunDoc.id x coll).mp hx)).1]
    have hf : (sortDescBy RunDoc.id coll).find? (fallbackQuery cfg) = none := by
      rw [List.find?_eq_none]
      intro x hx
      simp [(h x ((mem_sortDescBy RunDoc.id x coll).mp hx)).2]
    rw [hp, hf]

/-- C2, witness: a run that exceeded the actual fallback bound
(`n_tries = max_tries + 1`) is not returned. -/
theorem findProductionWork_fallback_witness :
    findProductionWork stdConfig [c2ExhaustedRun] = none :=
  (findProductionWork_fallback_bound stdConfig [c2ExhaustedRun]).2 (by decide)

/-- C3, counterexample: claiming a run increments the persisted `n_tries`
(here from 2 to 3), so it is false that `n_tries` changes only on a
transition into `failed`. -/
theorem set_busy_changes_nTries_cex :
    (c3Doc.restrax.map RestraxDoc.n_tries) = some 2 ∧
    (((setRestraxBusy stdConfig c3Doc [c3Doc]).2.head?.bind RunDoc.restrax).map
        RestraxDoc.n_tries) = some 3 := by decide

/-- C3, amended: in production, claiming a run (`set_restrax_busy`) stores
`n_tries` equal to the snapshot's count plus one (one when absent);
`set_restrax_done` leaves the stored `n_tries` unchanged; and
`set_restrax_failed` increments the stored `n_tries` by exactly one. -/
theorem nTries_update_rules (cfg : Config) (snap d : RunDoc)
    (rest : List RunDoc) (mem : List ℚ) (reason : String)
    (hp : cfg.production = true) (hid : d.id = snap.id) :
    (((setRestraxBusy cfg snap (d :: rest)).2.head?.bind RunDoc.restrax).map
        RestraxDoc.n_tries) = some (snapTries snap + 1) ∧
    (((setRestraxDone cfg snap mem (d :: rest)).2.head?.bind RunDoc.restrax).map
        RestraxDoc.n_tries) = some ((d.restrax.map RestraxDoc.n_tries).getD 0) ∧
    (((setRestraxFailed cfg snap reason (d :: rest)).2.1.head?.bind
        RunDoc.restrax).map RestraxDoc.n_tries) =
      some ((d.restrax.map RestraxDoc.n_tries).getD 0 + 1) := by
  have hfd : busyFilter snap d = true := by simp [busyFilter, hid]
  refine ⟨?_, ?_, ?_⟩
  · simp only [setRestraxBusy, hp, Bool.not_true, Bool.false_eq_true,
      if_false, updateOne, hfd, if_true, List.head?_cons, Option.bind_some]
    cases hsr : snap.restrax <;> simp [busyRestrax, snapTries, hsr]
  · simp only [setRestraxDone, hp, Bool.not_true, Bool.false_eq_true,
      if_false, updateOne, hfd, if_true, List.head?_cons, Option.bind_some]
    cases hdr : d.restrax <;> simp [defaultRestrax, hdr]
  · simp only [setRestraxFailed, hp, Bool.not_true, Bool.false_eq_true,
      if_false, updateOne, hfd, if_true, List.head?_cons, Option.bind_some]
    have hfd2 : busyFilter snap
        { d with restrax := some { (d.restrax.getD defaultRestrax) with
            state := "failed", ended := some cfg.now, reason := some reason } } =
          true := by simp [busyFilter, hid]
    simp only [hfd2, if_true, updateOne, List.head?_cons, Option.bind_some]
    cases hdr : d.restrax <;> simp [defaultRestrax, hdr]

/-- C3, witness: the amended claim instantiated on a concrete collection
(a claim of a fresh run stores one try). -/
theorem nTries_update_rules_witness :
    (((setRestraxBusy stdConfig c1Snap [c1Snap]).2.head?.bind
        RunDoc.restrax).map RestraxDoc.n_tries) = some (snapTries c1Snap + 1) :=
  (nTries_update_rules stdConfig c1Snap c1Snap [] [] "r" rfl rfl).1

/-- C4 (confirmed): with checks enabled, `do_checks` raises exactly when
some document violates one of the consistency conditions (missing source
or destination, a destination chunk with records but falsy file size, an
embedded exception marker, or a record-count mismatch); it returns
normally when no document violates any; and the single error it raises
aggregates the error messages of every document. -/
theorem doChecks_error_iff (cfg : Config) (fs : FS) (docs : List DataDoc)
    (hic : cfg.ignoreChecks = false) :
    ((∃ e, doChecks cfg fs docs = .error e) ↔
      ∃ d ∈ docs, docViolation cfg fs d) ∧
    ((∀ d ∈ docs, ¬ docViolation cfg fs d) → doChecks cfg fs docs = .ok ()) ∧
    (∀ e, doChecks cfg fs docs = .error e →
      e = "Doc had errors: " ++ String.intercalate " and "
        (docs.flatMap (docErrors cfg fs))) := by
  have key : (docs.flatMap (docErrors cfg fs)).isEmpty = true ↔
      ∀ d ∈ docs, ¬ docViolation cfg fs d := by
    rw [List.isEmpty_iff, flatMap_nil_iff]
    constructor
    · intro h d hd
      exact (docErrors_eq_nil_iff cfg fs d).mp (h d hd)
    · intro h d hd
      exact (docErrors_eq_nil_iff cfg fs d).mpr (h d hd)
  simp only [doChecks, hic, Bool.false_eq_true, if_false]
  by_cases hE : (docs.flatMap (docErrors cfg fs)).isEmpty = true
  · rw [if_pos hE]
    refine ⟨?_, fun _ => rfl, fun e he => Except.noConfusion he⟩
    constructor
    · rintro ⟨e, he⟩
      exact absurd he (by simp)
    · rintro ⟨d, hd, hv⟩
      exact absurd hv (key.mp hE d hd)
  · rw [if_neg hE]
    refine ⟨?_, ?_, ?_⟩
    · constructor
      · rintro -
        by_contra hno
        push_neg at hno
        exact hE (key.mpr hno)
      · intro _
        exact ⟨_, rfl⟩
    · intro hall
      exact absurd (key.mpr hall) hE
    · intro e he
      cases he
      rfl

/-- C4, witness: a deliberately truncated destination (10 of 15 records)
makes `do_checks` raise the aggregated error. -/
theorem doChecks_error_witness :
    doChecks stdConfig fsC4 [c4Doc] =
      .error ("Doc had errors: " ++ String.intercalate " and "
        ([c4Doc].flatMap (docErrors stdConfig fsC4))) := by
  obtain ⟨e, he⟩ := (doChecks_error_iff stdConfig fsC4 [c4Doc] rfl).1.mpr
    ⟨c4Doc, by decide, by decide⟩
  rw [he, (doChecks_error_iff stdConfig fsC4 [c4Doc] rfl).2.2 e he]

/-- C5 (confirmed): for a raw-record family with the default tables, the
target size is the fixed 5000 MB raw-records value, and the heavy
compressor `zstd` is selected exactly when the summed detector sub-rates
exceed the 50 MB/s threshold (`is_heavy_rate_mbs`) or the retry count
exceeds `max_tries / 2`; otherwise the light compressor `bz2` is used. -/
theorem getCompressorAndSize_raw_policy (cfg : Config) (run : RunDoc)
    (doc : DataDoc) (hraw : cfg.rawRecordTypes.contains doc.type = true)
    (htc : cfg.targetCompressor = defaultTargetCompressor)
    (hts : cfg.targetSize = defaultTargetSize) :
    (getCompressorAndSize cfg run doc).2 = 5000 ∧
    ((getCompressorAndSize cfg run doc).1 = some "zstd" ↔
      (cfg.isHeavyRateMbs < computeRate run ∨
        (cfg.maxTries : ℚ) / 2 < (snapTries run : ℚ))) ∧
    (¬(cfg.isHeavyRateMbs < computeRate run ∨
        (cfg.maxTries : ℚ) / 2 < (snapTries run : ℚ)) →
      (getCompressorAndSize cfg run doc).1 = some "bz2") := by
  have hdiv := nat_div_two_lt_iff cfg.maxTries (snapTries run)
  have hm : doc.type ∈ cfg.rawRecordTypes := by simpa using hraw
  have hheavy : dGet defaultTargetCompressor "_raw_record_compressor_heavy"
      (some "bz2") = some "zstd" := rfl
  have hlight : dGet defaultTargetCompressor "_raw_record_compressor_light"
      (some "zstd") = some "bz2" := rfl
  have hsize : dGet defaultTargetSize "_raw_records" 5000 = 5000 := rfl
  have hne1 : ((some "zstd" : Option String) == some "blosc") = false := rfl
  have hne2 : ((some "bz2" : Option String) == some "blosc") = false := rfl
  cases hb : (decide (cfg.isHeavyRateMbs < computeRate run) ||
      decide (cfg.maxTries / 2 < snapTries run)) with
  | false =>
    have hb1 : ¬(cfg.isHeavyRateMbs < computeRate run) := by
      have := (Bool.or_eq_false_iff.mp hb).1
      simpa using this
    have hb2 : ¬(cfg.maxTries / 2 < snapTries run) := by
      have := (Bool.or_eq_false_iff.mp hb).2
      simpa using this
    have hkey : getCompressorAndSize cfg run doc = (some "bz2", 5000) := by
      simp [getCompressorAndSize, hraw, hm, hb, htc, hts, hheavy, hlight,
        hsize, hne1, hne2]
    refine ⟨by rw [hkey], ?_, fun _ => by rw [hkey]⟩
    rw [hkey]
    constructor
    · intro h
      exact absurd h (by simp)
    · rintro (h | h)
      · exact absurd h hb1
      · exact absurd (hdiv.mpr h) hb2
  | true =>
    have hkey : getCompressorAndSize cfg run doc = (some "zstd", 5000) := by
      simp [getCompressorAndSize, hraw, hm, hb, htc, hts, hheavy, hlight,
        hsize, hne1, hne2]
    have hgo : cfg.isHeavyRateMbs < computeRate run ∨
        (cfg.maxTries : ℚ) / 2 < (snapTries run : ℚ) := by
      rcases Bool.or_eq_true_iff.mp hb with h | h
      · exact Or.inl (of_decide_eq_true h)
      · exact Or.inr (hdiv.mp (of_decide_eq_true h))
    refine ⟨by rw [hkey], ?_, fun hno => absurd hgo hno⟩
    rw [hkey]
    exact iff_of_true rfl hgo

/-- C5, witness: run 100001 at 80 MB/s total rate gets the heavy `zstd`
compressor and the fixed 5000 MB raw-records target size. -/
theorem getCompressorAndSize_raw_witness :
    (getCompressorAndSize stdConfig c5Run c5Doc).1 = some "zstd" ∧
    (getCompressorAndSize stdConfig c5Run c5Doc).2 = 5000 := by
  have h := getCompressorAndSize_raw_policy stdConfig c5Run c5Doc
    (by decide) rfl rfl
  refine ⟨h.2.1.mpr (Or.inl ?_), h.1⟩
  simp [computeRate, c5Run, c1Snap, stdConfig]
  decide

/-- C6 (code bug, evaluated): Python fnmatch does match the type name
`peaks` against the table pattern `peak*`, but `_fnmatch_from_doc` passes
the table key as the name and the type as the pattern (the swapped
order), so the lookup falls through every entry and returns the `_other`
default: the compressor selected for a `peaks` document is `None` (strax
default) with the `_other` size 1500, not the `peak*` entry `zstd`. -/
theorem fnmatchFromDoc_swapped_eval :
    fnmatch "peaks" "peak*" = true ∧
    fnmatch "peak*" "peaks" = false ∧
    fnmatchFromDoc defaultTargetCompressor "peaks" = some none ∧
    getCompressorAndSize stdConfig c1Snap c6PeaksDoc = (none, 1500) := by
  decide

/-- C7 (confirmed): `should_skip_compression` returns true exactly when
bypass mode is on, an excluded mode occurs in the run's mode, the type is
the live raw feed, the type matches one of the configured skip globs, or
the chunk count is at most `recompress_min_chunks` and the type is not a
raw family; and a unit that should skip is never dispatched to the
rechunker by `handle_run`. -/
theorem shouldSkip_iff_never_rechunked (cfg : Config) (fs : FS)
    (run : RunDoc) :
    (∀ doc : DataDoc, shouldSkipCompression cfg fs run doc = true ↔
      (cfg.bypassMode = true ∨
       (∃ m ∈ cfg.excludeModes, strContains run.mode m = true) ∨
       doc.type = "live_data" ∨
       (∃ g ∈ cfg.skipCompression, fnmatch doc.type g = true) ∨
       (nChunks fs doc.location ≤ cfg.recompressMinChunks ∧
         doc.type ∉ cfg.rawRecordTypes))) ∧
    (∀ d ∈ getDataDocs cfg fs run, shouldSkipCompression cfg fs run d = true →
      d ∉ (handleRun cfg fs run).rechunked) := by
  constructor
  · intro doc
    unfold shouldSkipCompression
    split_ifs with h1 h2 h3 h4 h5
    · exact iff_of_true rfl (Or.inl h1)
    · exact iff_of_true rfl (Or.inr (Or.inl (by simpa using h2)))
    · exact iff_of_true rfl (Or.inr (Or.inr (Or.inl (by simpa using h3))))
    · exact iff_of_true rfl (Or.inr (Or.inr (Or.inr (Or.inl (by simpa using h4)))))
    · refine iff_of_true rfl (Or.inr (Or.inr (Or.inr (Or.inr ?_))))
      simpa using h5
    · refine iff_of_false (by simp) ?_
      rintro (h | h | h | h | h)
      · exact h1 h
      · exact h2 (by simpa using h)
      · exact h3 (by simpa using h)
      · exact h4 (by simpa using h)
      · exact h5 (by simp [h.1, h.2])
  · intro d hd hskip hmem
    rw [handleRun_rechunked] at hmem
    have hin : d ∈ (getDataDocs cfg fs run).filter
        (fun e => !(shouldSkipCompression cfg fs run e)) := by
      simpa [compressSet] using
        rechunkDocs_sub cfg run fs (compressSet cfg fs run) d hmem
    have h2 := (List.mem_filter.mp hin).2
    rw [hskip] at h2
    simp at h2

/-- C7, witness: the event-level unit matches the default skip glob and is
never dispatched to the rechunker in the end-to-end scenario. -/
theorem shouldSkip_witness :
    shouldSkipCompression stdConfig fsC7 c7Run c7EventDoc = true ∧
    c7EventDoc ∉ (handleRun stdConfig fsC7 c7Run).rechunked := by
  have h := shouldSkip_iff_never_rechunked stdConfig fsC7 c7Run
  have hs : shouldSkipCompression stdConfig fsC7 c7Run c7EventDoc = true :=
    (h.1 c7EventDoc).mpr (Or.inr (Or.inr (Or.inr (Or.inl
      ⟨"*event*", by decide, by decide⟩))))
  exact ⟨hs, h.2 c7EventDoc (by decide) hs⟩

/-- C8 (confirmed): for a bypassed unit in production, when the
destination already exists its contents are first relocated to the
quarantine (non-registered) path and an alert is emitted, so the existing
copy is never overwritten; a present source ends up at the destination;
a missing source only alerts (the model is total: no exception) and
leaves the destination unoccupied; and no other path is touched, so under
the destination-already-exists precondition no data is lost. -/
theorem bypass_preserves_data (cfg : Config) (fs : FS) (doc : DataDoc)
    (hp : cfg.production = true)
    (hq1 : renamedPath cfg.nonRegisteredFolder doc.location ≠
      renamedPath cfg.writeTo doc.location)
    (hq2 : renamedPath cfg.nonRegisteredFolder doc.location ≠ doc.location)
    (hq3 : renamedPath cfg.writeTo doc.location ≠ doc.location) :
    (∀ D, fs (renamedPath cfg.writeTo doc.location) = some D →
      (bypassForDataDoc cfg fs doc).1
        (renamedPath cfg.nonRegisteredFolder doc.location) = some D ∧
      (bypassForDataDoc cfg fs doc).2 ≠ []) ∧
    (∀ S, fs doc.location = some S →
      (bypassForDataDoc cfg fs doc).1
        (renamedPath cfg.writeTo doc.location) = some S) ∧
    (fs doc.location = none →
      (bypassForDataDoc cfg fs doc).1
        (renamedPath cfg.writeTo doc.location) = none ∧
      (bypassForDataDoc cfg fs doc).2 ≠ []) ∧
    (∀ p, p ≠ doc.location → p ≠ renamedPath cfg.writeTo doc.location →
      p ≠ renamedPath cfg.nonRegisteredFolder doc.location →
      (bypassForDataDoc cfg fs doc).1 p = fs p) := by
  have hsd : doc.location ≠ renamedPath cfg.writeTo doc.location := Ne.symm hq3
  have hsq : doc.location ≠ renamedPath cfg.nonRegisteredFolder doc.location :=
    Ne.symm hq2
  have hdq : renamedPath cfg.writeTo doc.location ≠
      renamedPath cfg.nonRegisteredFolder doc.location := Ne.symm hq1
  refine ⟨?_, ?_, ?_, ?_⟩
  · intro D hD
    have hds : (fs (renamedPath cfg.writeTo doc.location)).isSome = true := by
      simp [hD]
    rcases hsrc : fs doc.location with _ | S <;> constructor <;>
      simp [bypassForDataDoc, moveDir, hp, fsSet, hds, hD, hsrc, hsd, hsq,
        hdq, hq1, hq2, hq3]
  · intro S hS
    by_cases hds : (fs (renamedPath cfg.writeTo doc.location)).isSome = true <;>
      simp [bypassForDataDoc, moveDir, hp, fsSet, hds, hS, hsd, hsq, hdq,
        hq1, hq2, hq3]
  · intro hS
    by_cases hds : (fs (renamedPath cfg.writeTo doc.location)).isSome = true
    · constructor <;>
        simp [bypassForDataDoc, moveDir, hp, fsSet, hds, hS, hsd, hsq, hdq,
          hq1, hq2, hq3]
    · have hdn : fs (renamedPath cfg.writeTo doc.location) = none := by
        cases hk : fs (renamedPath cfg.writeTo doc.location)
        · rfl
        · rw [hk] at hds
          simp at hds
      constructor <;>
        simp [bypassForDataDoc, moveDir, hp, fsSet, hds, hdn, hS, hsd, hsq,
          hdq, hq1, hq2, hq3]
  · intro p hp1 hp2 hp3
    by_cases hds : (fs (renamedPath cfg.writeTo doc.location)).isSome = true <;>
      rcases hsrc : fs doc.location with _ | S <;>
        simp [bypassForDataDoc, moveDir, hp, fsSet, hds, hsrc, hsd, hsq, hdq,
          hq1, hq2, hq3, hp1, hp2, hp3]

/-- C8, witness: with the destination already present, the old destination
copy survives at the quarantine path and the source copy arrives at the
destination. -/
theorem bypass_preserves_witness :
    (bypassForDataDoc stdConfig fsC8 c8Doc).1
      (renamedPath stdConfig.nonRegisteredFolder c8SrcLoc) = some c8MdD ∧
    (bypassForDataDoc stdConfig fsC8 c8Doc).1
      (renamedPath stdConfig.writeTo c8SrcLoc) = some c8MdS := by
  have h := bypass_preserves_data stdConfig fsC8 c8Doc rfl (by decide)
    (by decide) (by decide)
  exact ⟨(h.1 c8MdD (by decide)).1, h.2.1 c8MdS (by decide)⟩

/-- C9 (confirmed): `handle_run` deletes only source directories of
transform-set units — every removed path is the location of a unit with
`should_skip_compression` false; on a fully successful production run all
of them are removed; the source of a skip-set unit is never removed; no
destination path is ever removed; and any removal at all implies that the
rechunker, the consistency checks and the optional deep validation all
completed without raising. -/
theorem handleRun_removal_safety (cfg : Config) (fs : FS) (run : RunDoc)
    (hnd : ((getDataDocs cfg fs run).map DataDoc.location).Nodup)
    (hdd : ∀ d ∈ getDataDocs cfg fs run, ∀ e ∈ getDataDocs cfg fs run,
      renamedPath cfg.writeTo d.location ≠ e.location) :
    (∀ p ∈ (handleRun cfg fs run).removed, ∃ d ∈ getDataDocs cfg fs run,
      shouldSkipCompression cfg fs run d = false ∧ p = d.location) ∧
    ((handleRun cfg fs run).error = none → cfg.production = true →
      ∀ d ∈ getDataDocs cfg fs run,
        shouldSkipCompression cfg fs run d = false →
        d.location ∈ (handleRun cfg fs run).removed) ∧
    (∀ d ∈ getDataDocs cfg fs run, shouldSkipCompression cfg fs run d = true →
      d.location ∉ (handleRun cfg fs run).removed) ∧
    (∀ d ∈ getDataDocs cfg fs run,
      renamedPath cfg.writeTo d.location ∉ (handleRun cfg fs run).removed) ∧
    ((handleRun cfg fs run).removed ≠ [] → stagesOk cfg fs run) := by
  have hsub : ∀ p ∈ (handleRun cfg fs run).removed,
      ∃ d ∈ compressSet cfg fs run, p = d.location := by
    intro p hp
    rcases handleRun_split cfg fs run with ⟨hre, -, -⟩ | ⟨-, hre, -⟩
    · rw [hre] at hp
      simp at hp
    · rw [hre] at hp
      exact removeOldDocs_sub cfg _ (compressSet cfg fs run) p hp
  have hA : ∀ p ∈ (handleRun cfg fs run).removed,
      ∃ d ∈ getDataDocs cfg fs run,
        shouldSkipCompression cfg fs run d = false ∧ p = d.location := by
    intro p hp
    obtain ⟨d, hd, rfl⟩ := hsub p hp
    have hm : d ∈ getDataDocs cfg fs run ∧
        shouldSkipCompression cfg fs run d = false := by
      simpa [compressSet] using hd
    exact ⟨d, hm.1, hm.2, rfl⟩
  refine ⟨hA, ?_, ?_, ?_, ?_⟩
  · intro herr hprod d hd hskip
    rcases handleRun_split cfg fs run with ⟨-, hse, -⟩ | ⟨-, hre, her⟩
    · rw [herr] at hse
      simp at hse
    · rw [hre]
      rw [herr] at her
      rw [removeOldDocs_none cfg (postBypassFS cfg fs run)
        (compressSet cfg fs run) hprod her.symm]
      refine List.mem_map.mpr ⟨d, ?_, rfl⟩
      simp [compressSet, List.mem_filter, hd, hskip]
  · intro d hd hskip hmem
    obtain ⟨e, he, hfalse, heq⟩ := hA d.location hmem
    have hde : d = e := List.inj_on_of_nodup_map hnd hd he heq
    rw [hde, hfalse] at hskip
    exact Bool.noConfusion hskip
  · intro d hd hmem
    obtain ⟨e, he, -, heq⟩ := hA _ hmem
    exact hdd d hd e he heq
  · intro hne
    rcases handleRun_split cfg fs run with ⟨hre, -, -⟩ | ⟨hok, -, -⟩
    · exact absurd hre hne
    · exact hok

/-- C9, witness: in the end-to-end scenario the transformed raw-records
source is deleted and the bypassed event-level source is not. -/
theorem handleRun_removal_witness :
    c7RawLoc ∈ (handleRun stdConfig fsC7 c7Run).removed ∧
    c7EventLoc ∉ (handleRun stdConfig fsC7 c7Run).removed := by
  have h := handleRun_removal_safety stdConfig fsC7 c7Run (by decide) (by decide)
  exact ⟨h.2.1 (by decide) rfl c7RawDoc (by decide) (by decide),
    h.2.2.1 c7EventDoc (by decide) (by decide)⟩

/-- C10 (confirmed): on metadata whose byte total agrees with
`itemsize * record count` (as strax metadata does), the deep validator's
policy degrades in the fixed order and skips no stage: at or below the
large-data threshold all fields are loaded in full (no aggregate-sum
fallback, given the threshold is at most the buffer ceiling); above the
threshold only the `time` column is kept, and aggregate sums replace the
full comparison exactly when even that restricted buffer would exceed the
hard memory ceiling; and whenever sums are compared the downgrade was
logged. -/
theorem validator_degradation_order (cfg : Config) (md : Metadata)
    (hcons : sumNbytes md = fieldsItemsize md.dtype * sumN md)
    (hTC : cfg.largeDataCompareThreshold ≤ cfg.maxCompareBufferMb * 1000000) :
    (sumNbytes md ≤ cfg.largeDataCompareThreshold →
      (validatePlan cfg md).1 = false ∧
      (validatePlan cfg md).2.compareSum = false ∧
      (validatePlan cfg md).2.bufItemsize = fieldsItemsize md.dtype) ∧
    (cfg.largeDataCompareThreshold < sumNbytes md →
      (validatePlan cfg md).1 = true ∧
      (validatePlan cfg md).2.bufItemsize =
        keptItemsize md.dtype (some "time") ∧
      ((validatePlan cfg md).2.compareSum = true ↔
        cfg.maxCompareBufferMb * 1000000 <
          keptItemsize md.dtype (some "time") * sumN md)) ∧
    ((validatePlan cfg md).2.compareSum = true →
      (validatePlan cfg md).2.loggedSumDowngrade = true) := by
  refine ⟨?_, ?_, ?_⟩
  · intro hsmall
    have hlarge : decide (cfg.largeDataCompareThreshold < sumNbytes md)
        = false := by
      simp
      omega
    have hbuf : decide (cfg.maxCompareBufferMb * 1000000 <
        fieldsItemsize md.dtype * sumN md) = false := by
      simp
      rw [← hcons]
      omega
    refine ⟨by simp [validatePlan, hlarge], ?_, ?_⟩
    · simp [validatePlan, getDataPlan, hlarge, keptItemsize, hbuf]
    · simp [validatePlan, getDataPlan, hlarge, keptItemsize]
  · intro hlargeP
    have hlarge : decide (cfg.largeDataCompareThreshold < sumNbytes md)
        = true := by simpa using hlargeP
    refine ⟨by simp [validatePlan, hlarge], ?_, ?_⟩
    · simp [validatePlan, getDataPlan, hlarge]
    · simp [validatePlan, getDataPlan, hlarge]
  · simp only [validatePlan, getDataPlan]
    intro h
    simpa using h

/-- C10, witness: metadata just above the single-field threshold restricts
the comparison to the time column but does not yet fall back to aggregate
sums. -/
theorem validator_degradation_witness :
    (validatePlan stdConfig c10LargeMd).1 = true ∧
    (validatePlan stdConfig c10LargeMd).2.compareSum = false := by
  have h := validator_degradation_order stdConfig c10LargeMd (by decide)
    (by decide)
  have h2 := h.2.1 (by decide)
  refine ⟨h2.1, ?_⟩
  cases hcs : (validatePlan stdConfig c10LargeMd).2.compareSum
  · rfl
  · exact absurd (h2.2.2.mp hcs) (by decide)

end Restrax
